import Mathlib

/-!
Verification of the asynchronous job orchestration subsystem of the
inspectai backend: the Job Store (src/services/job.service.js and
src/models/job.model.js), the BullMQ publish path with its backpressure
check (src/queues/inspection.bullmq.js), the photo-registration queueing
sequence (src/controllers/photo.controller.js), the RabbitMQ consumer
loop (consumeInspectionJobs), the socket event relay (src/lib/socket.js)
and the worker handler (workers/inspectionWorker.bullmq.js).

JavaScript numbers are modelled as integers or exact rationals; the
current wall clock is passed explicitly as a natural-number timestamp;
thrown errors are modelled with Except.
-/

deriving instance DecidableEq for Except

namespace InspectAI

/-- JavaScript Math.round: round half toward positive infinity. -/
def jsRound (q : ℚ) : ℤ := ⌊q + 1 / 2⌋

/-- Clamp of a progress value, from updateJobProgress:
Math.max(0, Math.min(100, progress)). -/
def clampProgress (p : ℤ) : ℤ := max 0 (min 100 p)

/-- JavaScript `v || d` for an optional number: 0 and undefined are falsy. -/
def jsOrNat (v : Option ℕ) (d : ℕ) : ℕ :=
  match v with
  | some n => if n = 0 then d else n
  | none => d

/-- JavaScript `v || d` for an optional string: the empty string and
undefined are falsy. -/
def jsOrStr (v : Option String) (d : String) : String :=
  match v with
  | some s => if s = "" then d else s
  | none => d

/-- JavaScript truthiness of an optional string (`if (message)`). -/
def msgTruthy (m : Option String) : Bool :=
  match m with
  | none => false
  | some s => !(s == "")

/-- The status enum of jobSchema in job.model.js. -/
inductive JobStatus
  | pending
  | queued
  | processing
  | completed
  | failed
  | cancelled
deriving DecidableEq, Repr

/-- Metadata payloads attached to job events: the queue-depth record of
markJobQueued and the wrapped error of markJobFailed. -/
inductive EventMetadata
  | queueDepth (depth : ℤ)
  | errorInfo (message : String)
deriving DecidableEq, Repr

/-- One entry of the events log (jobEventSchema). -/
structure JobEvent where
  type : String
  message : Option String
  progress : Option ℤ
  metadata : Option EventMetadata
  createdAt : ℕ
deriving DecidableEq, Repr

/-- The Job document (jobSchema in job.model.js). -/
structure Job where
  id : ℕ
  inspectionId : Option String
  organizationId : String
  jobType : String
  status : JobStatus
  progress : ℤ
  processedUnits : ℤ
  totalUnits : ℤ
  attempts : ℕ
  lastError : Option String
  payload : Option String
  result : Option String
  events : List JobEvent
  startedAt : Option ℕ
  completedAt : Option ℕ
deriving DecidableEq, Repr

/-- One emission to the real-time fan-out channel. -/
structure Emission where
  room : String
  event : String
deriving DecidableEq, Repr

/-- emitInspectionEvent from src/lib/socket.js: a silent no-op when the
socket server is uninitialized or the inspection id is absent (falsy),
otherwise one emission to the inspection room.  The socket server is
modelled as `Option Unit` (initialized or not). -/
def emitInspectionEvent (io : Option Unit) (inspectionId : Option String)
    (event : String) : List Emission :=
  match io, inspectionId with
  | some _, some iid => if iid = "" then [] else [⟨"inspection:" ++ iid, event⟩]
  | _, _ => []

/-- emitJobEvent from job.service.js: returns silently when the job is
null, otherwise forwards to emitInspectionEvent with the job's
inspection id. -/
def emitJobEvent (io : Option Unit) (job : Option Job) (event : String) : List Emission :=
  match job with
  | none => []
  | some j => emitInspectionEvent io j.inspectionId event

/-- Errors thrown by the job service: ApiError NOT_FOUND. -/
inductive ServiceError
  | notFound
deriving DecidableEq, Repr

/-- The argument object of updateJobProgress: every field optional. -/
structure ProgressUpdate where
  processedUnits : Option ℤ
  totalUnits : Option ℤ
  progress : Option ℤ
  status : Option JobStatus
  message : Option String
  metadata : Option EventMetadata
deriving DecidableEq, Repr

/-- Terminal statuses stamped with completedAt in updateJobProgress. -/
def isTerminal : JobStatus → Bool
  | .completed => true
  | .failed => true
  | .cancelled => true
  | _ => false

/-- The field updates of updateJobProgress without the event push:
merge provided fields, clamp progress to [0,100], stamp startedAt on
transition to processing and completedAt on a terminal status. -/
def applyFields (u : ProgressUpdate) (now : ℕ) (j : Job) : Job :=
  let j1 := match u.processedUnits with
    | some n => { j with processedUnits := n }
    | none => j
  let j2 := match u.totalUnits with
    | some n => { j1 with totalUnits := n }
    | none => j1
  let j3 := match u.progress with
    | some p => { j2 with progress := clampProgress p }
    | none => j2
  match u.status with
  | some st =>
      let j4 := { j3 with status := st }
      let j5 := if st = JobStatus.processing then { j4 with startedAt := some now } else j4
      if isTerminal st then { j5 with completedAt := some now } else j5
  | none => j3

/-- The event pushed by updateJobProgress when a truthy message is
given: type job.update, carrying the clamped progress when a numeric
progress was part of the update. -/
def updateEvent (u : ProgressUpdate) (now : ℕ) : JobEvent :=
  ⟨"job.update", u.message, u.progress.map clampProgress, u.metadata, now⟩

/-- The full document update performed by updateJobProgress. -/
def applyProgressUpdate (u : ProgressUpdate) (now : ℕ) (j : Job) : Job :=
  let j4 := applyFields u now j
  if msgTruthy u.message then
    { j4 with events := j4.events ++ [updateEvent u now] }
  else j4

/-- Job.findById on the store. -/
def findById (store : List Job) (jobId : ℕ) : Option Job :=
  store.find? (fun j => j.id == jobId)

/-- Job.findByIdAndUpdate on the store: rewrite the matching document. -/
def updateById (store : List Job) (jobId : ℕ) (f : Job → Job) : List Job :=
  store.map (fun j => if j.id == jobId then f j else j)

/-- Result of a mutating job-service call: the updated document, the
updated store, and the relay emissions it produced. -/
structure MutationResult where
  job : Job
  store : List Job
  emissions : List Emission
deriving DecidableEq, Repr

/-- updateJobProgress from job.service.js: merge fields and optionally
push an event, throw NotFound when the id does not resolve, then emit
job.updated to the relay. -/
def updateJobProgress (store : List Job) (io : Option Unit) (jobId : ℕ)
    (u : ProgressUpdate) (now : ℕ) : Except ServiceError MutationResult :=
  let store2 := updateById store jobId (applyProgressUpdate u now)
  match findById store2 jobId with
  | none => .error .notFound
  | some j => .ok ⟨j, store2, emitJobEvent io (some j) "job.updated"⟩

/-- Result of markJobCompleted: the re-read document may in principle be
absent, as the source does not re-check it. -/
structure CompletedResult where
  job : Option Job
  store : List Job
  emissions : List Emission
deriving DecidableEq, Repr

/-- The ProgressUpdate markJobCompleted passes to updateJobProgress:
status completed, progress 100, with a defaulted message. -/
def completedUpdate (message : Option String) : ProgressUpdate :=
  ⟨none, none, some 100, some .completed,
    some (jsOrStr message "Job completed successfully"), none⟩

/-- The second document update of markJobCompleted, storing the result. -/
def applyResult (result : String) (j : Job) : Job :=
  { j with result := some result }

/-- markJobCompleted from job.service.js: updateJobProgress with
status completed and progress 100 and a defaulted message, then a second
update storing the result, then re-read and emit job.completed. -/
def markJobCompleted (store : List Job) (io : Option Unit) (jobId : ℕ)
    (result : String) (message : Option String) (now : ℕ) :
    Except ServiceError CompletedResult :=
  match updateJobProgress store io jobId (completedUpdate message) now with
  | .error e => .error e
  | .ok r =>
      let store2 := updateById r.store jobId (applyResult result)
      let j := findById store2 jobId
      .ok ⟨j, store2, r.emissions ++ emitJobEvent io j "job.completed"⟩

/-- A thrown JavaScript error: either a plain string or an Error object
carrying a message, as distinguished by markJobFailed. -/
inductive JsError
  | str (s : String)
  | obj (message : String)
deriving DecidableEq, Repr

/-- The message text markJobFailed extracts from the error. -/
def JsError.text : JsError → String
  | .str s => s
  | .obj m => m

/-- The metadata markJobFailed attaches: the wrapped error when the
thrown value is an object, nothing for a plain string. -/
def JsError.meta : JsError → Option EventMetadata
  | .str _ => none
  | .obj m => some (.errorInfo m)

/-- The document update of markJobFailed from job.service.js: set
status failed, stamp completedAt, store lastError and push a job.failed
event. -/
def applyFailed (error : JsError) (now : ℕ) (j : Job) : Job :=
  { j with
    status := JobStatus.failed
    completedAt := some now
    lastError := some error.text
    events := j.events ++ [⟨"job.failed", some error.text, none, error.meta, now⟩] }

/-- markJobFailed from job.service.js: apply the failure update, throw
NotFound if the job is gone, and emit job.failed to the relay. -/
def markJobFailed (store : List Job) (io : Option Unit) (jobId : ℕ)
    (error : JsError) (now : ℕ) : Except ServiceError MutationResult :=
  let store2 := updateById store jobId (applyFailed error now)
  match findById store2 jobId with
  | none => .error .notFound
  | some j => .ok ⟨j, store2, emitJobEvent io (some j) "job.failed"⟩

/-- The ProgressUpdate markJobQueued passes to updateJobProgress:
status queued, message "Job queued", and queue-depth metadata when the
depth is numeric. -/
def queuedUpdate (queueDepth : Option ℤ) : ProgressUpdate :=
  ⟨none, none, none, some .queued, some "Job queued", queueDepth.map EventMetadata.queueDepth⟩

/-- markJobQueued from job.service.js: updateJobProgress with the
queued update, then an extra relay emission named job.queued. -/
def markJobQueued (store : List Job) (io : Option Unit) (jobId : ℕ)
    (queueDepth : Option ℤ) (now : ℕ) : Except ServiceError MutationResult :=
  match updateJobProgress store io jobId (queuedUpdate queueDepth) now with
  | .error e => .error e
  | .ok r => .ok ⟨r.job, r.store, r.emissions ++ emitJobEvent io (some r.job) "job.queued"⟩

/-- createJob from job.service.js: a fresh pending document with one
job.created event and a job.created relay emission. -/
def createJob (store : List Job) (io : Option Unit) (id : ℕ)
    (inspectionId : Option String) (organizationId : String) (jobType : String)
    (payload : Option String) (totalUnits : ℤ) (now : ℕ) :
    Job × List Job × List Emission :=
  let j : Job :=
    { id := id
      inspectionId := inspectionId
      organizationId := organizationId
      jobType := jobType
      status := .pending
      progress := 0
      processedUnits := 0
      totalUnits := totalUnits
      attempts := 0
      lastError := none
      payload := payload
      result := none
      events := [⟨"job.created", some "Job created", some 0, none, now⟩]
      startedAt := none
      completedAt := none }
  (j, store ++ [j], emitJobEvent io (some j) "job.created")

/-- Queue statistics returned by getQueueStats in queue.config.js. -/
structure QueueStats where
  waiting : ℕ
  active : ℕ
  completed : ℕ
  failed : ℕ
  delayed : ℕ
deriving DecidableEq, Repr

/-- total = waiting + active + delayed, as computed by getQueueStats. -/
def QueueStats.total (s : QueueStats) : ℕ := s.waiting + s.active + s.delayed

/-- The backoff part of BullMQ default job options. -/
structure BackoffCfg where
  kind : String
  delay : ℕ
deriving DecidableEq, Repr

/-- Default job options of a BullMQ queue. -/
structure JobOptionsCfg where
  attempts : ℕ
  backoff : BackoffCfg
  priority : ℕ
deriving DecidableEq, Repr

/-- The defaultJobOptions configured by initQueue in
inspection.bullmq.js: attempts 3, exponential backoff with 2000ms delay,
priority 1. -/
def inspectionDefaultJobOptions : JobOptionsCfg := ⟨3, ⟨"exponential", 2000⟩, 1⟩

/-- The wire message published for an inspection job. -/
structure BrokerMessage where
  jobId : ℕ
  inspectionId : Option String
  organizationId : String
deriving DecidableEq, Repr

/-- The error thrown by the saturated publish path, carrying
statusCode 503. -/
inductive PublishError
  | serviceUnavailable (statusCode : ℕ) (message : String)
deriving DecidableEq, Repr

/-- The value returned by a successful publishInspectionJob. -/
structure PublishOk where
  jobId : ℕ
  queueDepth : ℕ
deriving DecidableEq, Repr

/-- publishInspectionJob from inspection.bullmq.js: read the queue
stats, reject with a 503-coded error when total is at or above
maxPending (default 500 when the configured value is falsy), otherwise
add the message to the broker and report depth total + 1. -/
def publishInspectionJob (stats : QueueStats) (maxPendingCfg : Option ℕ)
    (msg : BrokerMessage) (broker : List BrokerMessage) :
    Except PublishError (PublishOk × List BrokerMessage) :=
  let maxPending := jsOrNat maxPendingCfg 500
  if stats.total ≥ maxPending then
    .error (.serviceUnavailable 503 "Inspection queue is busy, please retry later")
  else
    .ok (⟨msg.jobId, stats.total + 1⟩, broker ++ [msg])

/-- Outcome of the queueing section of registerPhotos in
photo.controller.js: the resulting job store and broker contents, the
HTTP status of the response and the job status and queue depth reported
in its body. -/
structure RegisterOutcome where
  store : List Job
  broker : List BrokerMessage
  httpStatus : ℕ
  respJobStatus : Option JobStatus
  respQueueDepth : ℕ
deriving DecidableEq, Repr

/-- The queueing section of registerPhotos (photo.controller.js): mark
the created job queued with depth 0, publish it, then re-read it for the
response; on any failure inside the try block mark the job failed,
swallow the error and still respond 201 CREATED reporting the stale
created-job status.  When even markJobFailed throws NotFound the error
reaches the error handler as a 404. -/
def registerPhotosQueueStep (store : List Job) (io : Option Unit) (job : Job)
    (stats : QueueStats) (maxPendingCfg : Option ℕ) (broker : List BrokerMessage)
    (t1 t2 : ℕ) : RegisterOutcome :=
  match markJobQueued store io job.id (some 0) t1 with
  | .error _ => ⟨store, broker, 404, none, 0⟩
  | .ok r1 =>
      match publishInspectionJob stats maxPendingCfg
          ⟨job.id, job.inspectionId, job.organizationId⟩ broker with
      | .error e =>
          match e with
          | .serviceUnavailable _ m =>
              match markJobFailed r1.store io job.id (.obj m) t2 with
              | .error _ => ⟨r1.store, broker, 404, none, 0⟩
              | .ok r2 => ⟨r2.store, broker, 201, some job.status, 0⟩
      | .ok (pok, broker2) =>
          match findById r1.store job.id with
          | none =>
              match markJobFailed r1.store io job.id (.obj "Job not found") t2 with
              | .error _ => ⟨r1.store, broker2, 404, none, 0⟩
              | .ok r2 => ⟨r2.store, broker2, 201, some job.status, 0⟩
          | some qj => ⟨r1.store, broker2, 201, some qj.status, pok.queueDepth⟩

/-- Manual acknowledgment actions available to the RabbitMQ consumer. -/
inductive BrokerAction
  | ack
  | nackMsg (requeue : Bool)
deriving DecidableEq, Repr

/-- Outcome of one handler invocation inside consumeInspectionJobs:
either normal return (listing the acknowledgment actions the handler
performed itself) or a thrown error. -/
inductive HandlerOutcome
  | success (actions : List BrokerAction)
  | failure (err : JsError)

/-- Observable outcome of delivering one message to the
consumeInspectionJobs callback. -/
structure ConsumeOutcome where
  store : List Job
  actions : List BrokerAction
  handlerInvoked : Bool
  threw : Bool

/-- The consumeInspectionJobs callback from the RabbitMQ queue module:
on a JSON parse failure ack immediately and discard without invoking the
handler; on a handler exception mark the job failed (ignoring a failure
of that call) and nack with requeue false; the callback itself never
rethrows.  The parse result is passed in as `parsed`. -/
def consumeMessage (store : List Job) (io : Option Unit)
    (parsed : Option BrokerMessage) (handler : BrokerMessage → HandlerOutcome)
    (now : ℕ) : ConsumeOutcome :=
  match parsed with
  | none => ⟨store, [.ack], false, false⟩
  | some m =>
      match handler m with
      | .success acts => ⟨store, acts, true, false⟩
      | .failure err =>
          let store2 := match markJobFailed store io m.jobId err now with
            | .ok r => r.store
            | .error _ => store
          ⟨store2, [.nackMsg false], true, false⟩

/-- Per-photo progress computed by the worker loop in
inspectionWorker.bullmq.js for the 0-based photo index i:
Math.round(((i + 1) / totalPhotos) * 80) + 10. -/
def photoProgress (total i : ℕ) : ℤ :=
  jsRound (((i : ℚ) + 1) / (total : ℚ) * 80) + 10

/-- Modelled from the spec: the per-photo progress formula stated by the
specification for the 1-based photo index k, round(k/total * 80) + 10. -/
def specPhotoProgress (total k : ℕ) : ℤ :=
  jsRound ((k : ℚ) / (total : ℚ) * 80) + 10

/-- The sequence of progress values the handler reports for one job:
5 at the processing transition, one value per photo, 90 when organizing
rooms in auto-classification mode, and 100 at completion. -/
def workerProgressSequence (total : ℕ) (aiMode : Bool) : List ℤ :=
  5 :: ((List.range total).map (photoProgress total)
    ++ ((if aiMode then [(90 : ℤ)] else []) ++ [100]))

/-- The initial updateJobProgress call of processInspectionJob: status
processing, progress 5. -/
def processingUpdate (aiMode : Bool) : ProgressUpdate :=
  ⟨none, none, some 5, some .processing,
    some (if aiMode then "Starting AI room classification..." else "Starting photo analysis..."),
    none⟩

/-- The per-photo updateJobProgress call of the worker loop. -/
def photoUpdate (total i : ℕ) : ProgressUpdate :=
  ⟨some ((i : ℤ) + 1), some (total : ℤ), some (photoProgress total i), none,
    some ("Processing photo " ++ toString (i + 1) ++ "/" ++ toString total), none⟩

/-- The organizing-rooms updateJobProgress call made in
auto-classification mode: progress 90. -/
def organizingUpdate : ProgressUpdate :=
  ⟨none, none, some 90, none, some "Organizing photos into rooms...", none⟩

/-- The updateJobProgress calls issued by one handler invocation before
markJobCompleted. -/
def workerUpdates (total : ℕ) (aiMode : Bool) : List ProgressUpdate :=
  processingUpdate aiMode ::
    ((List.range total).map (photoUpdate total)
      ++ (if aiMode then [organizingUpdate] else []))

/-- Run a list of updateJobProgress calls in order against the store,
stopping at the first thrown error. -/
def runUpdates (store : List Job) (io : Option Unit) (jobId : ℕ)
    (us : List ProgressUpdate) (now : ℕ) : Except ServiceError (List Job) :=
  match us with
  | [] => .ok store
  | u :: rest =>
      match updateJobProgress store io jobId u now with
      | .error e => .error e
      | .ok r => runUpdates r.store io jobId rest now

/-- One full handler invocation of processInspectionJob as far as the
Job Store is concerned: the progress updates of the loop followed by
markJobCompleted with message "Analysis completed". -/
def handlerRun (store : List Job) (io : Option Unit) (jobId : ℕ) (total : ℕ)
    (aiMode : Bool) (result : String) (now : ℕ) : Except ServiceError (List Job) :=
  match runUpdates store io jobId (workerUpdates total aiMode) now with
  | .error e => .error e
  | .ok store2 =>
      match markJobCompleted store2 io jobId result (some "Analysis completed") now with
      | .error e => .error e
      | .ok r => .ok r.store

/-- The severity score table of the worker's room aggregation
(conditionScores in inspectionWorker.bullmq.js): excellent 5, good 4,
fair 3, poor 2, critical 1, unrated 0; the `|| 0` fallback maps any
unknown condition string to 0 as well. -/
def conditionScores (c : String) : ℕ :=
  if c = "excellent" then 5
  else if c = "good" then 4
  else if c = "fair" then 3
  else if c = "poor" then 2
  else if c = "critical" then 1
  else 0

/-- Modelled from the spec: the severity score table as the claim states
it, with excellent 5 descending and critical and unrated both scoring 0. -/
def specConditionScores (c : String) : ℕ :=
  if c = "excellent" then 5
  else if c = "good" then 4
  else if c = "fair" then 3
  else if c = "poor" then 2
  else 0

/-- The index-to-name table used after rounding the average score. -/
def conditionNames : List String :=
  ["unrated", "critical", "poor", "fair", "good", "excellent"]

/-- Room condition aggregation of the worker: average the per-photo
scores, round with Math.round, and index into conditionNames with an
unrated fallback for an out-of-range index. -/
def aggregateCondition (conds : List String) : String :=
  let total : ℕ := (conds.map conditionScores).sum
  let avg : ℚ := (total : ℚ) / (conds.length : ℚ)
  (conditionNames.get? (jsRound avg).toNat).getD "unrated"

/-- Modelled from the spec: the same aggregation but with the claim's
score table (critical scoring 0). -/
def specAggregateCondition (conds : List String) : String :=
  let total : ℕ := (conds.map specConditionScores).sum
  let avg : ℚ := (total : ℚ) / (conds.length : ℚ)
  (conditionNames.get? (jsRound avg).toNat).getD "unrated"

/-- An issue found on a photo by the vision analysis. -/
structure RoomIssue where
  label : String
  severity : String
  recommendation : Option String
deriving DecidableEq, Repr

/-- The per-photo vision analysis result used by the aggregation. -/
structure PhotoAnalysis where
  condition : Option String
  issues : List RoomIssue
deriving DecidableEq, Repr

/-- A photo reference held inside a room. -/
structure RoomPhoto where
  id : ℕ
  condition : Option String
deriving DecidableEq, Repr

/-- An analyzed photo as grouped by the worker: the (already mutated)
photo together with its analysis. -/
structure AnalyzedPhoto where
  photo : RoomPhoto
  analysis : PhotoAnalysis
deriving DecidableEq, Repr

/-- A room group of the inspection document. -/
structure Room where
  name : String
  displayOrder : ℕ
  conditionRating : String
  photos : List RoomPhoto
  aiSummary : String
  actions : List String
deriving DecidableEq, Repr

/-- The transient holding group name used in auto-classification mode. -/
def pendingName : String := "_pending_classification"

/-- filter(Boolean) over the photo conditions of a group: drop absent
and empty-string conditions. -/
def truthyConditions (cs : List (Option String)) : List String :=
  (cs.filterMap id).filter (fun s => !(s == ""))

/-- The per-group room mutation of the reorganization loop: append the
group's photos, recompute conditionRating from the truthy conditions
when there are any, and rebuild aiSummary and the high-severity actions
list. -/
def reorgRoomUpdate (rt : String) (pd : List AnalyzedPhoto) (room : Room) : Room :=
  let room1 : Room := { room with photos := room.photos ++ pd.map (fun a => a.photo) }
  let conds := truthyConditions (pd.map (fun a => a.analysis.condition))
  let room2 : Room :=
    if conds.length > 0 then { room1 with conditionRating := aggregateCondition conds }
    else room1
  let allIssues : List RoomIssue := (pd.map (fun a => a.analysis.issues)).flatten
  { room2 with
    aiSummary := rt ++ " inspection: " ++ toString pd.length ++ " photo(s) analyzed. "
      ++ toString allIssues.length ++ " issue(s) found."
    actions := ((allIssues.filter (fun i => i.severity == "high")).filterMap
      (fun i => i.recommendation)).filter (fun s => !(s == "")) }

/-- Rewrite the first room satisfying the predicate, mirroring a
find-then-mutate on the in-memory rooms array. -/
def updateFirstRoom (rooms : List Room) (p : Room → Bool) (f : Room → Room) : List Room :=
  match rooms with
  | [] => []
  | r :: rest => if p r then f r :: rest else r :: updateFirstRoom rest p f

/-- One iteration of the reorganization loop for a classification group:
mutate the first existing non-pending room of that name, or push a fresh
room (displayOrder = count of non-pending rooms + 1, conditionRating
unrated) and mutate it. -/
def reorgStep (rooms : List Room) (entry : String × List AnalyzedPhoto) : List Room :=
  let rt := entry.1
  let pd := entry.2
  let sel := fun r : Room => r.name == rt && !(r.name == pendingName)
  if rooms.any sel then
    updateFirstRoom rooms sel (reorgRoomUpdate rt pd)
  else
    let fresh : Room :=
      ⟨rt, (rooms.filter (fun r => !(r.name == pendingName))).length + 1, "unrated", [], "", []⟩
    rooms ++ [reorgRoomUpdate rt pd fresh]

/-- The whole reorganization loop over the classification groups in
insertion order. -/
def reorganize (rooms : List Room) (classes : List (String × List AnalyzedPhoto)) : List Room :=
  classes.foldl reorgStep rooms

/-- Remove the processed photo ids from the first pending holding room,
as done before the reorganization loop. -/
def removePendingPhotos (rooms : List Room) (photoIds : List ℕ) : List Room :=
  updateFirstRoom rooms (fun r => r.name == pendingName)
    (fun r => { r with photos := r.photos.filter (fun p => !(photoIds.contains p.id)) })

/-- Drop the pending holding room when it has become empty, as the final
filter of the reorganization. -/
def dropEmptyPending (rooms : List Room) : List Room :=
  rooms.filter (fun r => !(r.name == pendingName) || r.photos.length > 0)

/-- Insert one classified photo into the insertion-ordered grouping map
(a JavaScript Map keyed by room type). -/
def addClassification (m : List (String × List AnalyzedPhoto)) (rt : String)
    (p : AnalyzedPhoto) : List (String × List AnalyzedPhoto) :=
  if m.any (fun kv => kv.1 == rt) then
    m.map (fun kv => if kv.1 == rt then (kv.1, kv.2 ++ [p]) else kv)
  else
    m ++ [(rt, [p])]

/-- Build the grouping map from the photo loop's classification results
in processing order. -/
def buildClassifications (items : List (String × AnalyzedPhoto)) :
    List (String × List AnalyzedPhoto) :=
  items.foldl (fun m it => addClassification m it.1 it.2) []

theorem applyFields_id (u : ProgressUpdate) (now : ℕ) (j : Job) :
    (applyFields u now j).id = j.id := by
  rcases u with ⟨pu, tu, p, st, msg, md⟩
  simp only [applyFields]
  cases pu <;> cases tu <;> cases p <;> cases st <;> simp <;> split_ifs <;> rfl

theorem applyFields_events (u : ProgressUpdate) (now : ℕ) (j : Job) :
    (applyFields u now j).events = j.events := by
  rcases u with ⟨pu, tu, p, st, msg, md⟩
  simp only [applyFields]
  cases pu <;> cases tu <;> cases p <;> cases st <;> simp <;> split_ifs <;> rfl

theorem applyFields_progress (u : ProgressUpdate) (now : ℕ) (j : Job) :
    (applyFields u now j).progress =
      (match u.progress with
        | some p => clampProgress p
        | none => j.progress) := by
  rcases u with ⟨pu, tu, p, st, msg, md⟩
  simp only [applyFields]
  cases pu <;> cases tu <;> cases p <;> cases st <;> simp <;> split_ifs <;> rfl

theorem applyFields_status (u : ProgressUpdate) (now : ℕ) (j : Job) :
    (applyFields u now j).status = u.status.getD j.status := by
  rcases u with ⟨pu, tu, p, st, msg, md⟩
  simp only [applyFields]
  cases pu <;> cases tu <;> cases p <;> cases st <;> simp <;> split_ifs <;> rfl

theorem applyProgressUpdate_events (u : ProgressUpdate) (now : ℕ) (j : Job) :
    (applyProgressUpdate u now j).events =
      j.events ++ (if msgTruthy u.message then [updateEvent u now] else []) := by
  simp only [applyProgressUpdate]
  split_ifs with h <;> simp [applyFields_events, h]

theorem applyProgressUpdate_id (u : ProgressUpdate) (now : ℕ) (j : Job) :
    (applyProgressUpdate u now j).id = j.id := by
  simp only [applyProgressUpdate]
  split_ifs <;> simp [applyFields_id]

theorem applyProgressUpdate_progress (u : ProgressUpdate) (now : ℕ) (j : Job) :
    (applyProgressUpdate u now j).progress = (applyFields u now j).progress := by
  simp only [applyProgressUpdate]
  split_ifs <;> rfl

theorem applyProgressUpdate_status (u : ProgressUpdate) (now : ℕ) (j : Job) :
    (applyProgressUpdate u now j).status = u.status.getD j.status := by
  simp only [applyProgressUpdate]
  split_ifs <;> simp [applyFields_status]

theorem findById_updateById (store : List Job) (jobId : ℕ) (f : Job → Job)
    (hf : ∀ x, (f x).id = x.id) :
    findById (updateById store jobId f) jobId = (findById store jobId).map f := by
  induction store with
  | nil => rfl
  | cons j rest ih =>
      simp only [findById, updateById, List.map_cons, List.find?_cons, beq_iff_eq] at ih ⊢
      by_cases h : j.id = jobId
      · simp [h, hf]
      · have hb : (j.id == jobId) = false := by simpa using h
        simp [hb, ih, h]

theorem markJobFailed_eq (store : List Job) (io : Option Unit) (jobId : ℕ)
    (error : JsError) (now : ℕ) (j : Job) (h : findById store jobId = some j) :
    markJobFailed store io jobId error now =
      .ok ⟨applyFailed error now j, updateById store jobId (applyFailed error now),
        emitJobEvent io (some (applyFailed error now j)) "job.failed"⟩ := by
  simp only [markJobFailed]
  rw [findById_updateById store jobId (applyFailed error now) (fun x => rfl), h]
  rfl

theorem updateJobProgress_eq (store : List Job) (io : Option Unit) (jobId : ℕ)
    (u : ProgressUpdate) (now : ℕ) (j : Job) (h : findById store jobId = some j) :
    updateJobProgress store io jobId u now =
      .ok ⟨applyProgressUpdate u now j, updateById store jobId (applyProgressUpdate u now),
        emitJobEvent io (some (applyProgressUpdate u now j)) "job.updated"⟩ := by
  simp only [updateJobProgress]
  rw [findById_updateById store jobId _ (applyProgressUpdate_id u now), h]
  rfl

theorem markJobQueued_eq (store : List Job) (io : Option Unit) (jobId : ℕ)
    (queueDepth : Option ℤ) (now : ℕ) (j : Job) (h : findById store jobId = some j) :
    markJobQueued store io jobId queueDepth now =
      .ok ⟨applyProgressUpdate (queuedUpdate queueDepth) now j,
        updateById store jobId (applyProgressUpdate (queuedUpdate queueDepth) now),
        emitJobEvent io (some (applyProgressUpdate (queuedUpdate queueDepth) now j)) "job.updated"
          ++ emitJobEvent io (some (applyProgressUpdate (queuedUpdate queueDepth) now j)) "job.queued"⟩ := by
  simp only [markJobQueued]
  rw [updateJobProgress_eq store io jobId (queuedUpdate queueDepth) now j h]

/-- The composite document update performed by markJobCompleted. -/
def applyCompleted (result : String) (message : Option String) (now : ℕ) (j : Job) : Job :=
  applyResult result (applyProgressUpdate (completedUpdate message) now j)

theorem updateById_updateById (store : List Job) (jobId : ℕ) (f g : Job → Job)
    (hf : ∀ x, (f x).id = x.id) :
    updateById (updateById store jobId f) jobId g =
      updateById store jobId (fun x => g (f x)) := by
  simp only [updateById, List.map_map]
  apply List.map_congr_left
  intro a _
  by_cases h : a.id = jobId
  · simp [Function.comp, h, hf]
  · simp [Function.comp, h]

theorem markJobCompleted_eq (store : List Job) (io : Option Unit) (jobId : ℕ)
    (result : String) (message : Option String) (now : ℕ) (j : Job)
    (h : findById store jobId = some j) :
    markJobCompleted store io jobId result message now =
      .ok ⟨some (applyCompleted result message now j),
        updateById store jobId (fun x => applyCompleted result message now x),
        emitJobEvent io (some (applyProgressUpdate (completedUpdate message) now j)) "job.updated"
          ++ emitJobEvent io (some (applyCompleted result message now j)) "job.completed"⟩ := by
  simp only [markJobCompleted]
  rw [updateJobProgress_eq store io jobId (completedUpdate message) now j h]
  simp only [updateById_updateById store jobId (applyProgressUpdate (completedUpdate message) now)
    (applyResult result) (applyProgressUpdate_id _ now)]
  rw [findById_updateById store jobId
    (fun x => applyResult result (applyProgressUpdate (completedUpdate message) now x))
    (fun x => by simp [applyResult, applyProgressUpdate_id]), h]
  rfl

/-- Events appended by a list of updateJobProgress calls. -/
def updatesEvents (us : List ProgressUpdate) (now : ℕ) : List JobEvent :=
  match us with
  | [] => []
  | u :: rest => (if msgTruthy u.message then [updateEvent u now] else []) ++ updatesEvents rest now

theorem foldl_applyProgressUpdate_events (us : List ProgressUpdate) :
    ∀ (j : Job) (now : ℕ),
    (us.foldl (fun a u => applyProgressUpdate u now a) j).events =
      j.events ++ updatesEvents us now := by
  induction us with
  | nil => intro j now; simp [updatesEvents]
  | cons u rest ih =>
      intro j now
      simp only [List.foldl_cons, updatesEvents, ih, applyProgressUpdate_events]
      simp [List.append_assoc]

theorem runUpdates_spec (us : List ProgressUpdate) :
    ∀ (store : List Job) (io : Option Unit) (jobId : ℕ) (j : Job) (now : ℕ),
    findById store jobId = some j →
    ∃ store', runUpdates store io jobId us now = .ok store' ∧
      findById store' jobId = some (us.foldl (fun a u => applyProgressUpdate u now a) j) := by
  induction us with
  | nil =>
      intro store io jobId j now h
      exact ⟨store, rfl, by simpa using h⟩
  | cons u rest ih =>
      intro store io jobId j now h
      have h2 : findById (updateById store jobId (applyProgressUpdate u now)) jobId =
          some (applyProgressUpdate u now j) := by
        rw [findById_updateById store jobId _ (applyProgressUpdate_id u now), h]
        rfl
      obtain ⟨store', hrun, hfind⟩ :=
        ih (updateById store jobId (applyProgressUpdate u now)) io jobId
          (applyProgressUpdate u now j) now h2
      refine ⟨store', ?_, by simpa using hfind⟩
      simp only [runUpdates, updateJobProgress_eq store io jobId u now j h]
      exact hrun

theorem jsOrStr_ne_empty (v : Option String) (d : String) (hd : d ≠ "") :
    jsOrStr v d ≠ "" := by
  unfold jsOrStr
  cases v with
  | none => exact hd
  | some s =>
      by_cases h : s = ""
      · simp [h, hd]
      · simp [h]

theorem msgTruthy_jsOrStr (v : Option String) (d : String) (hd : d ≠ "") :
    msgTruthy (some (jsOrStr v d)) = true := by
  have h := jsOrStr_ne_empty v d hd
  simp [msgTruthy, h]

theorem applyProgressUpdate_completed (message : Option String) (now : ℕ) (j : Job) :
    applyProgressUpdate (completedUpdate message) now j =
      { j with
        status := .completed
        progress := 100
        completedAt := some now
        events := j.events ++ [updateEvent (completedUpdate message) now] } := by
  have hm := msgTruthy_jsOrStr message "Job completed successfully" (by decide)
  simp only [applyProgressUpdate, applyFields, completedUpdate, hm, if_true]
  have hc : clampProgress 100 = 100 := by decide
  simp [isTerminal, hc, completedUpdate]

theorem applyProgressUpdate_queued (qd : Option ℤ) (now : ℕ) (j : Job) :
    applyProgressUpdate (queuedUpdate qd) now j =
      { j with
        status := .queued
        events := j.events ++ [updateEvent (queuedUpdate qd) now] } := by
  simp only [applyProgressUpdate, applyFields, queuedUpdate, msgTruthy]
  simp [isTerminal, queuedUpdate]

/-- C9: a delivered message whose payload fails to parse as JSON is
acked immediately and discarded: the handler is not invoked, nothing is
nacked or requeued, the store is untouched and the consumer callback
does not throw. -/
theorem C9_poison_message_acked (store : List Job) (io : Option Unit)
    (handler : BrokerMessage → HandlerOutcome) (now : ℕ) :
    consumeMessage store io none handler now =
      ⟨store, [BrokerAction.ack], false, false⟩ := rfl

/-- C10: the event relay is a silent no-op whenever the socket server is
uninitialized or the inspection id is absent, and the document and store
produced by every Job Store mutation are independent of the relay's
availability, so no mutation can fail because the relay is unavailable. -/
theorem C10_relay_no_op_and_independence :
    (∀ (inspectionId : Option String) (event : String),
      emitInspectionEvent none inspectionId event = []) ∧
    (∀ (io : Option Unit) (event : String), emitInspectionEvent io none event = []) ∧
    (∀ (io : Option Unit) (event : String), emitJobEvent io none event = []) ∧
    (∀ (store : List Job) (io io' : Option Unit) (jobId : ℕ) (u : ProgressUpdate) (now : ℕ),
      (updateJobProgress store io jobId u now).map (fun r => (r.job, r.store)) =
        (updateJobProgress store io' jobId u now).map (fun r => (r.job, r.store))) ∧
    (∀ (store : List Job) (io io' : Option Unit) (jobId : ℕ) (e : JsError) (now : ℕ),
      (markJobFailed store io jobId e now).map (fun r => (r.job, r.store)) =
        (markJobFailed store io' jobId e now).map (fun r => (r.job, r.store))) ∧
    (∀ (store : List Job) (io io' : Option Unit) (jobId : ℕ) (qd : Option ℤ) (now : ℕ),
      (markJobQueued store io jobId qd now).map (fun r => (r.job, r.store)) =
        (markJobQueued store io' jobId qd now).map (fun r => (r.job, r.store))) ∧
    (∀ (store : List Job) (io io' : Option Unit) (jobId : ℕ) (res : String)
        (msg : Option String) (now : ℕ),
      (markJobCompleted store io jobId res msg now).map (fun r => (r.job, r.store)) =
        (markJobCompleted store io' jobId res msg now).map (fun r => (r.job, r.store))) := by
  refine ⟨?_, ?_, ?_, ?_, ?_, ?_, ?_⟩
  · intro iid ev; cases iid <;> rfl
  · intro io ev; cases io <;> rfl
  · intro io ev; rfl
  · intro store io io' jobId u now
    simp only [updateJobProgress]
    cases h : findById (updateById store jobId (applyProgressUpdate u now)) jobId <;>
      simp [h, Except.map]
  · intro store io io' jobId e now
    simp only [markJobFailed]
    cases h : findById (updateById store jobId (applyFailed e now)) jobId <;>
      simp [h, Except.map]
  · intro store io io' jobId qd now
    simp only [markJobQueued, updateJobProgress]
    cases h : findById (updateById store jobId (applyProgressUpdate (queuedUpdate qd) now))
      jobId <;> simp [h, Except.map]
  · intro store io io' jobId res msg now
    simp only [markJobCompleted, updateJobProgress]
    cases h : findById (updateById store jobId (applyProgressUpdate (completedUpdate msg) now))
      jobId <;> simp [h, Except.map]

/-- C4 counterexample: the BullMQ inspection queue is not configured
with zero automatic retry attempts; its defaultJobOptions request 3
attempts with exponential backoff, so the transport does retry a failed
job, contrary to the claim. -/
theorem C4_counterexample :
    inspectionDefaultJobOptions.attempts = 3 ∧
    ¬ inspectionDefaultJobOptions.attempts = 0 ∧
    inspectionDefaultJobOptions.backoff.kind = "exponential" := by decide

/-- C4 amended: on a handler exception the RabbitMQ consumer records
the failure via markJobFailed and nacks with requeue false, without
rethrowing; the BullMQ queue however configures broker-level retries
(attempts 3 with exponential backoff). -/
theorem C4_amended_failure_handling :
    (∀ (store : List Job) (io : Option Unit) (m : BrokerMessage) (err : JsError) (now : ℕ),
      (consumeMessage store io (some m) (fun _ => .failure err) now).actions =
        [BrokerAction.nackMsg false] ∧
      (consumeMessage store io (some m) (fun _ => .failure err) now).threw = false ∧
      (consumeMessage store io (some m) (fun _ => .failure err) now).handlerInvoked = true ∧
      (∀ j : Job, findById store m.jobId = some j →
        findById (consumeMessage store io (some m) (fun _ => .failure err) now).store m.jobId =
          some (applyFailed err now j))) ∧
    inspectionDefaultJobOptions.attempts = 3 := by
  refine ⟨?_, rfl⟩
  intro store io m err now
  refine ⟨rfl, rfl, rfl, ?_⟩
  intro j h
  simp only [consumeMessage, markJobFailed_eq store io m.jobId err now j h]
  rw [findById_updateById store m.jobId (applyFailed err now) (fun x => rfl), h]
  rfl

/-- A concrete job document used by witnesses and counterexamples. -/
def job1 : Job :=
  { id := 1
    inspectionId := some "insp1"
    organizationId := "org1"
    jobType := "inspection.classify_and_analyze"
    status := .pending
    progress := 0
    processedUnits := 0
    totalUnits := 2
    attempts := 0
    lastError := none
    payload := none
    result := none
    events := [⟨"job.created", some "Job created", some 0, none, 0⟩]
    startedAt := none
    completedAt := none }

/-- C4 witness: the amended theorem applied at a concrete store and
message. -/
theorem C4_witness :
    findById [job1] 1 = some job1 ∧
    findById (consumeMessage [job1] none (some ⟨1, some "insp1", "org1"⟩)
        (fun _ => .failure (.str "boom")) 9).store 1 =
      some (applyFailed (.str "boom") 9 job1) :=
  ⟨by decide,
    (C4_amended_failure_handling.1 [job1] none ⟨1, some "insp1", "org1"⟩ (.str "boom") 9).2.2.2
      job1 (by decide)⟩

/-- C3 counterexample: markJobQueued on a concrete existing job sets
status queued but the entry appended to the events log has type
job.update (with message "Job queued"), not job.queued as the claim
states. -/
theorem C3_counterexample :
    (markJobQueued [job1] none 1 (some 4) 5).toOption.map
        (fun r => (r.job.status, r.job.events.map (fun e => e.type))) =
      some (JobStatus.queued, ["job.created", "job.update"]) ∧
    ¬ (markJobQueued [job1] none 1 (some 4) 5).toOption.map
        (fun r => r.job.events.map (fun e => e.type)) =
      some ["job.created", "job.queued"] := by decide

/-- C3 amended: for every existing job, markQueued sets status queued
and appends one event of type job.update with message "Job queued"
carrying the queue depth as metadata when a numeric depth is provided;
the name job.queued is used for the relay emission, not for the events
log entry. -/
theorem C3_amended_markQueued (store : List Job) (io : Option Unit) (jobId : ℕ)
    (n : ℤ) (now : ℕ) (j : Job) (h : findById store jobId = some j) :
    ∃ r, markJobQueued store io jobId (some n) now = .ok r ∧
      r.job.status = .queued ∧
      r.job.events = j.events ++
        [⟨"job.update", some "Job queued", none, some (.queueDepth n), now⟩] ∧
      r.emissions = emitJobEvent io (some r.job) "job.updated" ++
        emitJobEvent io (some r.job) "job.queued" := by
  refine ⟨_, markJobQueued_eq store io jobId (some n) now j h, ?_, ?_, rfl⟩
  · rw [applyProgressUpdate_queued]
  · rw [applyProgressUpdate_queued]
    rfl

/-- C3 witness: the amended theorem applied at a concrete store. -/
theorem C3_witness :
    findById [job1] 1 = some job1 ∧
    ∃ r, markJobQueued [job1] none 1 (some 4) 5 = .ok r ∧
      r.job.status = .queued ∧
      r.job.events = job1.events ++
        [⟨"job.update", some "Job queued", none, some (.queueDepth 4), 5⟩] ∧
      r.emissions = emitJobEvent none (some r.job) "job.updated" ++
        emitJobEvent none (some r.job) "job.queued" :=
  ⟨by decide, C3_amended_markQueued [job1] none 1 4 5 job1 (by decide)⟩

/-- C6: the clamp of updateJobProgress always lands in [0,100], and for
every sequence of updateJobProgress calls on a store whose jobs all have
progress within [0,100], every job of the resulting store still has
progress within [0,100], for arbitrary (also out-of-range) numeric
progress inputs. -/
theorem C6_progress_always_in_range :
    (∀ p : ℤ, 0 ≤ clampProgress p ∧ clampProgress p ≤ 100) ∧
    (∀ (us : List ProgressUpdate) (store store' : List Job) (io : Option Unit)
        (jobId now : ℕ),
      (∀ j ∈ store, 0 ≤ j.progress ∧ j.progress ≤ 100) →
      runUpdates store io jobId us now = .ok store' →
      ∀ j ∈ store', 0 ≤ j.progress ∧ j.progress ≤ 100) := by
  have hclamp : ∀ p : ℤ, 0 ≤ clampProgress p ∧ clampProgress p ≤ 100 := by
    intro p
    unfold clampProgress
    exact ⟨le_max_left 0 _, max_le (by norm_num) (min_le_left _ _)⟩
  refine ⟨hclamp, ?_⟩
  intro us
  induction us with
  | nil =>
      intro store store' io jobId now hinv hrun
      simp only [runUpdates, Except.ok.injEq] at hrun
      rw [← hrun]
      exact hinv
  | cons u rest ih =>
      intro store store' io jobId now hinv hrun
      simp only [runUpdates, updateJobProgress] at hrun
      cases hf : findById (updateById store jobId (applyProgressUpdate u now)) jobId with
      | none => simp [hf] at hrun
      | some x =>
          simp only [hf] at hrun
          refine ih (updateById store jobId (applyProgressUpdate u now)) store' io jobId now
            ?_ hrun
          intro j hj
          rcases List.mem_map.mp hj with ⟨a, ha, rfl⟩
          by_cases hid : (a.id == jobId) = true
          · simp only [hid, if_true]
            rw [applyProgressUpdate_progress, applyFields_progress]
            cases hup : u.progress with
            | some p => exact hclamp p
            | none => exact hinv a ha
          · simp only [hid, if_false]
            exact hinv a ha

/-- C6 witness: the invariant applied to a concrete run that feeds the
out-of-range progress value 150 to updateJobProgress. -/
theorem C6_witness :
    (∀ j ∈ ([job1] : List Job), 0 ≤ j.progress ∧ j.progress ≤ 100) ∧
    runUpdates [job1] none 1 [⟨none, none, some 150, none, none, none⟩] 2 =
      .ok [{ job1 with progress := 100 }] ∧
    (∀ j ∈ ([{ job1 with progress := 100 }] : List Job),
      0 ≤ j.progress ∧ j.progress ≤ 100) :=
  ⟨by decide, by decide,
    C6_progress_always_in_range.2 [⟨none, none, some 150, none, none, none⟩]
      [job1] [{ job1 with progress := 100 }] none 1 2 (by decide) (by decide)⟩

theorem applyCompleted_fields (result : String) (message : Option String)
    (now : ℕ) (j : Job) :
    applyCompleted result message now j =
      { j with
        status := .completed
        progress := 100
        completedAt := some now
        result := some result
        events := j.events ++ [updateEvent (completedUpdate message) now] } := by
  unfold applyCompleted applyResult
  rw [applyProgressUpdate_completed]

/-- C7 counterexample: calling markCompleted twice on the same concrete
job does append exactly one more event, but it also rewrites the stored
completedAt timestamp (3 becomes 4), a further side effect on the stored
job that the claim excludes. -/
theorem C7_counterexample :
    ((markJobCompleted [job1] none 1 "done" none 3).toOption.bind (fun r1 =>
      (markJobCompleted r1.store none 1 "done" none 4).toOption.map (fun r2 =>
        (r1.job.map (fun x => (x.status, x.progress, x.events.length, x.completedAt)),
          r2.job.map (fun x => (x.status, x.progress, x.events.length, x.completedAt)))))) =
      some (some (JobStatus.completed, 100, 2, some 3),
        some (JobStatus.completed, 100, 3, some 4)) ∧
    (some 4 : Option ℕ) ≠ some 3 := ⟨rfl, by decide⟩

/-- C7 amended: calling markCompleted twice on an existing job is safe
and leaves status completed and progress 100; the second call appends
exactly one additional event entry and refreshes the completedAt
timestamp, leaving every other stored field unchanged. -/
theorem C7_amended_idempotence (store : List Job) (io : Option Unit) (jobId : ℕ)
    (result : String) (message : Option String) (t1 t2 : ℕ) (j : Job)
    (h : findById store jobId = some j) :
    ∃ r1 r2 j1 j2,
      markJobCompleted store io jobId result message t1 = .ok r1 ∧
      markJobCompleted r1.store io jobId result message t2 = .ok r2 ∧
      r1.job = some j1 ∧ r2.job = some j2 ∧
      j2.status = .completed ∧ j2.progress = 100 ∧
      j2.result = j1.result ∧
      j2.events = j1.events ++ [updateEvent (completedUpdate message) t2] ∧
      j2.completedAt = some t2 ∧
      j2.startedAt = j1.startedAt ∧
      j2.processedUnits = j1.processedUnits ∧
      j2.totalUnits = j1.totalUnits ∧
      j2.lastError = j1.lastError ∧
      j2.id = j1.id := by
  have h1 := markJobCompleted_eq store io jobId result message t1 j h
  have hfind1 : findById (updateById store jobId (fun x => applyCompleted result message t1 x))
      jobId = some (applyCompleted result message t1 j) := by
    rw [findById_updateById store jobId _
      (fun x => by simp [applyCompleted, applyResult, applyProgressUpdate_id]), h]
    rfl
  have h2 := markJobCompleted_eq
    (updateById store jobId (fun x => applyCompleted result message t1 x)) io jobId
    result message t2 (applyCompleted result message t1 j) hfind1
  refine ⟨_, _, applyCompleted result message t1 j,
    applyCompleted result message t2 (applyCompleted result message t1 j),
    h1, h2, rfl, rfl, ?_, ?_, ?_, ?_, ?_, ?_, ?_, ?_, ?_, ?_⟩ <;>
    simp [applyCompleted_fields]

/-- C7 witness: the amended theorem applied at a concrete store. -/
theorem C7_witness :
    findById [job1] 1 = some job1 ∧
    ∃ r1 r2 j1 j2,
      markJobCompleted [job1] none 1 "done" none 3 = .ok r1 ∧
      markJobCompleted r1.store none 1 "done" none 4 = .ok r2 ∧
      r1.job = some j1 ∧ r2.job = some j2 ∧
      j2.status = .completed ∧ j2.progress = 100 ∧
      j2.result = j1.result ∧
      j2.events = j1.events ++ [updateEvent (completedUpdate none) 4] ∧
      j2.completedAt = some 4 ∧
      j2.startedAt = j1.startedAt ∧
      j2.processedUnits = j1.processedUnits ∧
      j2.totalUnits = j1.totalUnits ∧
      j2.lastError = j1.lastError ∧
      j2.id = j1.id :=
  ⟨by decide, C7_amended_idempotence [job1] none 1 "done" none 3 4 job1 (by decide)⟩

/-- C1 counterexample: with the queue saturated (total 500 at the
default maxPending 500), the registerPhotos queueing sequence responds
201 (not 503) and leaves the stored job failed (not pending), although
no broker message is sent. -/
theorem C1_counterexample :
    (registerPhotosQueueStep [job1] none job1 ⟨500, 0, 0, 0, 0⟩ none [] 1 2).httpStatus = 201 ∧
    ¬ (registerPhotosQueueStep [job1] none job1 ⟨500, 0, 0, 0, 0⟩ none [] 1 2).httpStatus = 503 ∧
    (registerPhotosQueueStep [job1] none job1 ⟨500, 0, 0, 0, 0⟩ none [] 1 2).broker = [] ∧
    (findById (registerPhotosQueueStep [job1] none job1 ⟨500, 0, 0, 0, 0⟩ none [] 1 2).store
        1).map (fun x => x.status) = some JobStatus.failed ∧
    ¬ (findById (registerPhotosQueueStep [job1] none job1 ⟨500, 0, 0, 0, 0⟩ none [] 1 2).store
        1).map (fun x => x.status) = some JobStatus.pending := by decide

/-- C1 amended: when the broker depth is at or above the effective
maxPending, publishInspectionJob rejects with a 503-coded error and no
broker message is sent; but the controller has already marked the job
queued before publishing, catches the rejection, marks the job failed,
and responds 201 reporting the stale created-job status — the stored
record ends in failed, not pending, and no 503 reaches the caller. -/
theorem C1_amended_backpressure (store : List Job) (io : Option Unit) (j : Job)
    (stats : QueueStats) (cfg : Option ℕ) (broker : List BrokerMessage) (t1 t2 : ℕ)
    (h : findById store j.id = some j) (hsat : stats.total ≥ jsOrNat cfg 500) :
    publishInspectionJob stats cfg ⟨j.id, j.inspectionId, j.organizationId⟩ broker =
      .error (.serviceUnavailable 503 "Inspection queue is busy, please retry later") ∧
    (registerPhotosQueueStep store io j stats cfg broker t1 t2).broker = broker ∧
    (registerPhotosQueueStep store io j stats cfg broker t1 t2).httpStatus = 201 ∧
    (findById (registerPhotosQueueStep store io j stats cfg broker t1 t2).store j.id).map
      (fun x => x.status) = some JobStatus.failed ∧
    (registerPhotosQueueStep store io j stats cfg broker t1 t2).respJobStatus =
      some j.status := by
  have hpub : publishInspectionJob stats cfg ⟨j.id, j.inspectionId, j.organizationId⟩ broker =
      .error (.serviceUnavailable 503 "Inspection queue is busy, please retry later") := by
    simp [publishInspectionJob, hsat]
  have hq := markJobQueued_eq store io j.id (some 0) t1 j h
  have hfq : findById (updateById store j.id (applyProgressUpdate (queuedUpdate (some 0)) t1))
      j.id = some (applyProgressUpdate (queuedUpdate (some 0)) t1 j) := by
    rw [findById_updateById store j.id _ (applyProgressUpdate_id _ t1), h]
    rfl
  have hf := markJobFailed_eq
    (updateById store j.id (applyProgressUpdate (queuedUpdate (some 0)) t1)) io j.id
    (.obj "Inspection queue is busy, please retry later") t2
    (applyProgressUpdate (queuedUpdate (some 0)) t1 j) hfq
  refine ⟨hpub, ?_, ?_, ?_, ?_⟩ <;>
    simp only [registerPhotosQueueStep, hq, hpub, hf]
  rw [findById_updateById _ j.id
    (applyFailed (JsError.obj "Inspection queue is busy, please retry later") t2)
    (fun x => rfl), hfq]
  simp [applyFailed]

/-- C1 witness: the amended theorem applied at a concrete saturated
queue. -/
theorem C1_witness :
    findById [job1] 1 = some job1 ∧
    (⟨500, 0, 0, 0, 0⟩ : QueueStats).total ≥ jsOrNat none 500 ∧
    (publishInspectionJob ⟨500, 0, 0, 0, 0⟩ none ⟨1, some "insp1", "org1"⟩ [] =
      .error (.serviceUnavailable 503 "Inspection queue is busy, please retry later") ∧
    (registerPhotosQueueStep [job1] none job1 ⟨500, 0, 0, 0, 0⟩ none [] 1 2).broker = [] ∧
    (registerPhotosQueueStep [job1] none job1 ⟨500, 0, 0, 0, 0⟩ none [] 1 2).httpStatus = 201 ∧
    (findById (registerPhotosQueueStep [job1] none job1 ⟨500, 0, 0, 0, 0⟩ none [] 1 2).store
        1).map (fun x => x.status) = some JobStatus.failed ∧
    (registerPhotosQueueStep [job1] none job1 ⟨500, 0, 0, 0, 0⟩ none [] 1 2).respJobStatus =
      some job1.status) :=
  ⟨by decide, by decide,
    C1_amended_backpressure [job1] none job1 ⟨500, 0, 0, 0, 0⟩ none [] 1 2
      (by decide) (by decide)⟩

theorem photoProgress_val_0 : photoProgress 3 0 = 37 := by
  unfold photoProgress jsRound
  push_cast
  norm_num [Int.floor_eq_iff]

theorem photoProgress_val_1 : photoProgress 3 1 = 63 := by
  unfold photoProgress jsRound
  push_cast
  norm_num [Int.floor_eq_iff]

theorem photoProgress_val_2 : photoProgress 3 2 = 90 := by
  unfold photoProgress jsRound
  push_cast
  norm_num [Int.floor_eq_iff]

theorem workerUpdates_3 :
    workerUpdates 3 false = [processingUpdate false,
      ⟨some 1, some 3, some 37, none, some "Processing photo 1/3", none⟩,
      ⟨some 2, some 3, some 63, none, some "Processing photo 2/3", none⟩,
      ⟨some 3, some 3, some 90, none, some "Processing photo 3/3", none⟩] := by
  have hr : List.range 3 = [0, 1, 2] := by decide
  simp only [workerUpdates, hr, List.map_cons, List.map_nil, photoUpdate,
    photoProgress_val_0, photoProgress_val_1, photoProgress_val_2]
  decide

/-- C5: the worker reports per-photo progress exactly by the claimed
formula (1-based round(i/N*80)+10); for N = 3 the three per-photo values
are 37, 63, 90, each within 1 of the claimed approximate values 36, 63,
90; and a concrete run over 3 photos records exactly those three
per-photo progress events between the initial progress-5 processing
event and the final progress-100 completion event. -/
theorem C5_per_photo_progress :
    (∀ (total i : ℕ), photoProgress total i = specPhotoProgress total (i + 1)) ∧
    (List.range 3).map (photoProgress 3) = [37, 63, 90] ∧
    (∀ p ∈ ((List.range 3).map (photoProgress 3)).zip [36, 63, 90],
      (p.1 - p.2).natAbs ≤ 1) ∧
    ((handlerRun [job1] none 1 3 false "r" 7).toOption.bind (fun s => findById s 1)).map
        (fun x => x.events.map (fun e => (e.type, e.progress))) =
      some [("job.created", some 0), ("job.update", some 5), ("job.update", some 37),
        ("job.update", some 63), ("job.update", some 90), ("job.update", some 100)] := by
  have hvals : (List.range 3).map (photoProgress 3) = [37, 63, 90] := by
    have hr : List.range 3 = [0, 1, 2] := by decide
    simp [hr, photoProgress_val_0, photoProgress_val_1, photoProgress_val_2]
  refine ⟨?_, hvals, ?_, ?_⟩
  · intro total i
    have hcast : ((i + 1 : ℕ) : ℚ) = (i : ℚ) + 1 := by push_cast; ring
    rw [photoProgress, specPhotoProgress, hcast]
  · rw [hvals]
    decide
  · simp only [handlerRun, workerUpdates_3]
    decide

theorem jsRound_le_jsRound (q r : ℚ) (h : q ≤ r) : jsRound q ≤ jsRound r := by
  unfold jsRound
  exact Int.floor_le_floor (by linarith)

theorem jsRound_zero : jsRound 0 = 0 := by
  unfold jsRound
  norm_num [Int.floor_eq_iff]

theorem jsRound_eighty : jsRound 80 = 80 := by
  unfold jsRound
  norm_num [Int.floor_eq_iff]

theorem photoProgress_bounds (total i : ℕ) (hi : i < total) :
    10 ≤ photoProgress total i ∧ photoProgress total i ≤ 90 := by
  have htotn : 0 < total := lt_of_le_of_lt (Nat.zero_le i) hi
  have htot : (0 : ℚ) < (total : ℚ) := by exact_mod_cast htotn
  have hq0 : (0 : ℚ) ≤ ((i : ℚ) + 1) / (total : ℚ) * 80 := by positivity
  have hq80 : ((i : ℚ) + 1) / (total : ℚ) * 80 ≤ 80 := by
    have h1 : ((i : ℚ) + 1) / (total : ℚ) ≤ 1 := by
      rw [div_le_one htot]
      exact_mod_cast hi
    nlinarith
  constructor
  · unfold photoProgress
    have h := jsRound_zero ▸ jsRound_le_jsRound 0 _ hq0
    linarith
  · unfold photoProgress
    have h := jsRound_eighty ▸ jsRound_le_jsRound _ 80 hq80
    linarith

theorem photoProgress_mono (total i j : ℕ) (hij : i ≤ j) :
    photoProgress total i ≤ photoProgress total j := by
  unfold photoProgress
  have h : ((i : ℚ) + 1) / (total : ℚ) * 80 ≤ ((j : ℚ) + 1) / (total : ℚ) * 80 := by
    have hij' : ((i : ℚ) + 1) ≤ ((j : ℚ) + 1) := by
      have : (i : ℚ) ≤ (j : ℚ) := by exact_mod_cast hij
      linarith
    have := div_le_div_of_nonneg_right hij' (by positivity : (0 : ℚ) ≤ (total : ℚ))
    nlinarith
  have := jsRound_le_jsRound _ _ h
  linarith

theorem clampProgress_of_range (p : ℤ) (h0 : 0 ≤ p) (h100 : p ≤ 100) :
    clampProgress p = p := by
  unfold clampProgress
  rw [min_eq_right h100, max_eq_right h0]

theorem updatesEvents_append (l1 l2 : List ProgressUpdate) (now : ℕ) :
    updatesEvents (l1 ++ l2) now = updatesEvents l1 now ++ updatesEvents l2 now := by
  induction l1 with
  | nil => rfl
  | cons u rest ih => simp [updatesEvents, ih]

theorem updatesEvents_all_truthy (us : List ProgressUpdate) (now : ℕ)
    (h : ∀ u ∈ us, msgTruthy u.message = true) :
    updatesEvents us now = us.map (fun u => updateEvent u now) := by
  induction us with
  | nil => rfl
  | cons u rest ih =>
      simp only [updatesEvents, List.map_cons]
      rw [h u (by simp), ih (fun v hv => h v (by simp [hv]))]
      simp

theorem str_append_ne_empty (s t : String) (h : s ≠ "") : s ++ t ≠ "" := by
  intro he
  apply h
  have hd : (s ++ t).data = "".data := congrArg String.data he
  simp only [String.data_append] at hd
  rcases List.append_eq_nil.mp (by simpa using hd) with ⟨hs, _⟩
  apply String.ext
  simpa using hs

theorem msgTruthy_processing (aiMode : Bool) :
    msgTruthy (processingUpdate aiMode).message = true := by
  cases aiMode <;> decide

theorem msgTruthy_photo (total i : ℕ) :
    msgTruthy (photoUpdate total i).message = true := by
  simp only [photoUpdate, msgTruthy, Bool.not_eq_true', beq_eq_false_iff_ne, ne_eq]
  apply str_append_ne_empty
  apply str_append_ne_empty
  apply str_append_ne_empty
  decide

theorem updateEvent_progress (u : ProgressUpdate) (now : ℕ) :
    (updateEvent u now).progress = u.progress.map clampProgress := rfl

theorem worker_events_progress (total : ℕ) (aiMode : Bool) (now : ℕ) :
    (updatesEvents (workerUpdates total aiMode) now ++
        [updateEvent (completedUpdate (some "Analysis completed")) now]).map
      (fun e => e.progress) =
    (workerProgressSequence total aiMode).map some := by
  have hphoto : ∀ i ∈ List.range total,
      (updateEvent (photoUpdate total i) now).progress = some (photoProgress total i) := by
    intro i hi
    have hb := photoProgress_bounds total i (List.mem_range.mp hi)
    rw [updateEvent_progress]
    simp only [photoUpdate, Option.map_some']
    rw [clampProgress_of_range _ (by linarith [hb.1]) (by linarith [hb.2])]
  have hc5 : clampProgress 5 = 5 := by decide
  have hc90 : clampProgress 90 = 90 := by decide
  have hc100 : clampProgress 100 = 100 := by decide
  unfold workerUpdates workerProgressSequence
  simp only [updatesEvents, msgTruthy_processing, if_true, updatesEvents_append,
    updatesEvents_all_truthy ((List.range total).map (photoUpdate total)) now
      (by intro u hu; rcases List.mem_map.mp hu with ⟨i, _, rfl⟩; exact msgTruthy_photo total i)]
  have horg : msgTruthy organizingUpdate.message = true := by decide
  cases aiMode
  · simp only [Bool.false_eq_true, if_false, updatesEvents, List.map_map, List.map_append,
      List.map_cons, List.map_nil, List.append_nil, List.nil_append, Function.comp_def]
    rw [List.map_congr_left hphoto]
    simp [updateEvent_progress, processingUpdate, completedUpdate, hc5, hc100,
      Function.comp_def]
  · simp only [if_true, horg, updatesEvents, List.map_map, List.map_append, List.map_cons,
      List.map_nil, List.append_nil, List.nil_append, Function.comp_def]
    rw [List.map_congr_left hphoto]
    simp [updateEvent_progress, processingUpdate, completedUpdate, organizingUpdate,
      hc5, hc90, hc100, Function.comp_def]

theorem worker_sequence_chain (total : ℕ) (aiMode : Bool) :
    List.Chain' (fun a b => a ≤ b) (workerProgressSequence total aiMode) := by
  apply List.Pairwise.chain'
  unfold workerProgressSequence
  rw [List.pairwise_cons]
  constructor
  · intro b hb
    rcases List.mem_append.mp hb with hmap | htail
    · rcases List.mem_map.mp hmap with ⟨i, hi, rfl⟩
      have h := (photoProgress_bounds total i (List.mem_range.mp hi)).1
      linarith
    · rcases List.mem_append.mp htail with h90 | h100
      · cases aiMode
        · simp at h90
        · simp at h90
          subst h90
          norm_num
      · simp at h100
        subst h100
        norm_num
  · rw [List.pairwise_append]
    refine ⟨?_, ?_, ?_⟩
    · rw [List.pairwise_map]
      exact (List.pairwise_lt_range total).imp
        (fun hij => photoProgress_mono total _ _ (le_of_lt hij))
    · cases aiMode <;> simp
    · intro a ha b hb
      rcases List.mem_map.mp ha with ⟨i, hi, rfl⟩
      have h90 := (photoProgress_bounds total i (List.mem_range.mp hi)).2
      rcases List.mem_append.mp hb with hb90 | hb100
      · cases aiMode
        · simp at hb90
        · simp at hb90
          subst hb90
          linarith
      · simp at hb100
        subst hb100
        linarith

/-- C8: for one handler invocation over an existing job with at least
one photo, the handler run appends events whose progress values are
exactly the worker progress sequence (5, the per-photo values, 90 in
auto-classification mode, then 100), and that sequence is
non-decreasing from the initial processing event through the terminal
completion event. -/
theorem C8_progress_non_decreasing (store : List Job) (io : Option Unit) (jobId : ℕ)
    (total : ℕ) (aiMode : Bool) (result : String) (now : ℕ) (j : Job)
    (h : findById store jobId = some j) (hpos : 0 < total) :
    ∃ store' j' appended,
      handlerRun store io jobId total aiMode result now = .ok store' ∧
      findById store' jobId = some j' ∧
      j'.events = j.events ++ appended ∧
      appended.map (fun e => e.progress) = (workerProgressSequence total aiMode).map some ∧
      List.Chain' (fun a b => a ≤ b) (workerProgressSequence total aiMode) := by
  obtain ⟨store2, hrun, hfind2⟩ :=
    runUpdates_spec (workerUpdates total aiMode) store io jobId j now h
  have hcomp := markJobCompleted_eq store2 io jobId result (some "Analysis completed") now
    ((workerUpdates total aiMode).foldl (fun a u => applyProgressUpdate u now a) j) hfind2
  have hrunEq : handlerRun store io jobId total aiMode result now =
      .ok (updateById store2 jobId
        (fun x => applyCompleted result (some "Analysis completed") now x)) := by
    simp only [handlerRun, hrun, hcomp]
  have hfind3 : findById (updateById store2 jobId
      (fun x => applyCompleted result (some "Analysis completed") now x)) jobId =
      some (applyCompleted result (some "Analysis completed") now
        ((workerUpdates total aiMode).foldl (fun a u => applyProgressUpdate u now a) j)) := by
    rw [findById_updateById store2 jobId _
      (fun x => by simp [applyCompleted, applyResult, applyProgressUpdate_id]), hfind2]
    rfl
  refine ⟨_, _, updatesEvents (workerUpdates total aiMode) now ++
      [updateEvent (completedUpdate (some "Analysis completed")) now],
    hrunEq, hfind3, ?_, worker_events_progress total aiMode now,
    worker_sequence_chain total aiMode⟩
  have hev : (applyCompleted result (some "Analysis completed") now
      ((workerUpdates total aiMode).foldl (fun a u => applyProgressUpdate u now a) j)).events =
      ((workerUpdates total aiMode).foldl (fun a u => applyProgressUpdate u now a) j).events ++
        [updateEvent (completedUpdate (some "Analysis completed")) now] := by
    rw [applyCompleted_fields]
  rw [hev, foldl_applyProgressUpdate_events, List.append_assoc]

/-- C8 witness: the theorem applied to a concrete store with a 3-photo
job. -/
theorem C8_witness :
    findById [job1] 1 = some job1 ∧ 0 < 3 ∧
    ∃ store' j' appended,
      handlerRun [job1] none 1 3 false "r" 7 = .ok store' ∧
      findById store' 1 = some j' ∧
      j'.events = job1.events ++ appended ∧
      appended.map (fun e => e.progress) = (workerProgressSequence 3 false).map some ∧
      List.Chain' (fun a b => a ≤ b) (workerProgressSequence 3 false) :=
  ⟨by decide, by decide,
    C8_progress_non_decreasing [job1] none 1 3 false "r" 7 job1 (by decide) (by decide)⟩

/-- C2 counterexample: for a group consisting of one photo in condition
critical, the worker's aggregation (critical scores 1) yields the level
critical, while the claim's scoring (critical scores 0) would yield
unrated — the claimed score table is not the one the code uses. -/
theorem C2_counterexample :
    aggregateCondition ["critical"] = "critical" ∧
    specAggregateCondition ["critical"] = "unrated" ∧
    ("critical" : String) ≠ "unrated" := by
  refine ⟨?_, ?_, by decide⟩
  · have hs : (["critical"].map conditionScores).sum = 1 := by decide
    have hr : jsRound 1 = 1 := by
      unfold jsRound
      norm_num [Int.floor_eq_iff]
    unfold aggregateCondition
    rw [hs]
    norm_num [hr]
    decide
  · have hs : (["critical"].map specConditionScores).sum = 0 := by decide
    unfold specAggregateCondition
    rw [hs]
    norm_num [jsRound_zero]
    decide

/-- C2 amended: for every group of analyzed photos with at least one
truthy condition, the reorganization sets the group's conditionRating to
the aggregation of those conditions (severity scores excellent 5, good
4, fair 3, poor 2, critical 1, unrated and unknown 0, average rounded
with Math.round); and when two photos auto-classify into the same
previously-nonexistent space name, exactly one new space group is
created containing both photos, with that aggregate condition. -/
theorem C2_amended_aggregation (rt : String) (p1 p2 : RoomPhoto) (a1 a2 : PhotoAnalysis)
    (c1 c2 : String) (hrt : rt ≠ pendingName)
    (h1 : a1.condition = some c1) (h2 : a2.condition = some c2)
    (hc1 : c1 ≠ "") (hc2 : c2 ≠ "") :
    (∀ (rt' : String) (pd : List AnalyzedPhoto) (room : Room),
      truthyConditions (pd.map (fun a => a.analysis.condition)) ≠ [] →
      (reorgRoomUpdate rt' pd room).conditionRating =
        aggregateCondition (truthyConditions (pd.map (fun a => a.analysis.condition)))) ∧
    buildClassifications [(rt, ⟨p1, a1⟩), (rt, ⟨p2, a2⟩)] = [(rt, [⟨p1, a1⟩, ⟨p2, a2⟩])] ∧
    (dropEmptyPending (reorganize
        (removePendingPhotos [⟨pendingName, 999, "fair", [p1, p2], "", []⟩] [p1.id, p2.id])
        (buildClassifications [(rt, ⟨p1, a1⟩), (rt, ⟨p2, a2⟩)]))).map
      (fun r => (r.name, r.photos, r.conditionRating)) =
      [(rt, [p1, p2], aggregateCondition [c1, c2])] := by
  have hb1 : (c1 == "") = false := beq_eq_false_iff_ne.mpr hc1
  have hb2 : (c2 == "") = false := beq_eq_false_iff_ne.mpr hc2
  have hbrt : (pendingName == rt) = false := beq_eq_false_iff_ne.mpr (Ne.symm hrt)
  have hbrt2 : (rt == pendingName) = false := beq_eq_false_iff_ne.mpr hrt
  have hgen : ∀ (rt' : String) (pd : List AnalyzedPhoto) (room : Room),
      truthyConditions (pd.map (fun a => a.analysis.condition)) ≠ [] →
      (reorgRoomUpdate rt' pd room).conditionRating =
        aggregateCondition (truthyConditions (pd.map (fun a => a.analysis.condition))) := by
    intro rt' pd room hne
    simp only [reorgRoomUpdate]
    rw [if_pos (List.length_pos.mpr hne)]
  have hbuild : buildClassifications [(rt, ⟨p1, a1⟩), (rt, ⟨p2, a2⟩)] =
      [(rt, [⟨p1, a1⟩, ⟨p2, a2⟩])] := by
    simp [buildClassifications, addClassification]
  refine ⟨hgen, hbuild, ?_⟩
  rw [hbuild]
  simp [removePendingPhotos, updateFirstRoom, reorganize, reorgStep, reorgRoomUpdate,
    dropEmptyPending, truthyConditions, h1, h2, hb1, hb2, hbrt, hbrt2]

/-- C2 witness: the amended theorem applied to two concrete photos
classified into the previously-nonexistent room Kitchen. -/
theorem C2_witness :
    ("Kitchen" : String) ≠ pendingName ∧
    (("good" : String) ≠ "") ∧ (("excellent" : String) ≠ "") ∧
    ((∀ (rt' : String) (pd : List AnalyzedPhoto) (room : Room),
      truthyConditions (pd.map (fun a => a.analysis.condition)) ≠ [] →
      (reorgRoomUpdate rt' pd room).conditionRating =
        aggregateCondition (truthyConditions (pd.map (fun a => a.analysis.condition)))) ∧
    buildClassifications
        [("Kitchen", ⟨⟨1, some "good"⟩, ⟨some "good", []⟩⟩),
          ("Kitchen", ⟨⟨2, some "excellent"⟩, ⟨some "excellent", []⟩⟩)] =
      [("Kitchen", [⟨⟨1, some "good"⟩, ⟨some "good", []⟩⟩,
        ⟨⟨2, some "excellent"⟩, ⟨some "excellent", []⟩⟩])] ∧
    (dropEmptyPending (reorganize
        (removePendingPhotos
          [⟨pendingName, 999, "fair", [⟨1, some "good"⟩, ⟨2, some "excellent"⟩], "", []⟩]
          [(⟨1, some "good"⟩ : RoomPhoto).id, (⟨2, some "excellent"⟩ : RoomPhoto).id])
        (buildClassifications
          [("Kitchen", ⟨⟨1, some "good"⟩, ⟨some "good", []⟩⟩),
            ("Kitchen", ⟨⟨2, some "excellent"⟩, ⟨some "excellent", []⟩⟩)]))).map
      (fun r => (r.name, r.photos, r.conditionRating)) =
      [("Kitchen", [⟨1, some "good"⟩, ⟨2, some "excellent"⟩],
        aggregateCondition ["good", "excellent"])]) :=
  ⟨by decide, by decide, by decide,
    C2_amended_aggregation "Kitchen" ⟨1, some "good"⟩ ⟨2, some "excellent"⟩
      ⟨some "good", []⟩ ⟨some "excellent", []⟩ "good" "excellent"
      (by decide) rfl rfl (by decide) (by decide)⟩

end InspectAI
